import Mathlib

/-
Verification of the document-fraud-detection repository against its
specification.  The development shallowly embeds the three Python source
files:

* `Document_Format_Validation.py` — signature extraction, baseline training,
  and anomaly scoring (the core engine);
* `Document_MetaData_Analysis.py` — the metadata tamper heuristic.

Python floats are idealised as exact scaled decimals (`PyFloat`,
mantissa / 10^exp, which is what the repr of a float denotes); Python's
`round` is modelled as exact round-half-to-even over ℚ.  Python `Counter`
objects are modelled as insertion-ordered association lists, mirroring the
insertion-ordered iteration of CPython dicts.
-/

set_option maxHeartbeats 1000000

/-! ### Rendering of Python integers and floats to strings -/

/-- Digit characters, used to render numbers exactly as Python's str does. -/
def digitChar (n : Nat) : Char :=
  Nat.digitChar n

/-- Fuel-bounded digit expansion of a natural number (most significant first). -/
def natCharsAux : Nat → Nat → List Char
  | 0, _ => []
  | fuel + 1, n =>
    if n < 10 then [digitChar n]
    else natCharsAux fuel (n / 10) ++ [digitChar (n % 10)]

/-- Decimal digit string of a natural number, as Python's str renders it. -/
def natChars (n : Nat) : List Char :=
  natCharsAux (n + 1) n

/-- Python str of a natural number. -/
def natStr (n : Nat) : String :=
  ⟨natChars n⟩

/-- Python str of an integer. -/
def intStr (i : Int) : String :=
  (if i < 0 then "-" else "") ++ natStr i.natAbs

/-- Left-pad a digit list with zeros to a given width (Python 0-padding). -/
def padZeros (w : Nat) (cs : List Char) : List Char :=
  List.replicate (w - cs.length) '0' ++ cs

/-- A Python float idealised as the exact scaled decimal mantissa / 10^exp
that its shortest repr denotes. -/
structure PyFloat where
  mantissa : Int
  exp : Nat
deriving DecidableEq

/-- Round to nearest integer, ties to even — the rounding mode of Python's
built-in round. -/
def rne (q : ℚ) : ℤ :=
  if q - ⌊q⌋ = 1 / 2 then (if ⌊q⌋ % 2 = 0 then ⌊q⌋ else ⌊q⌋ + 1)
  else ⌊q + 1 / 2⌋

/-- Python round(f, 1) on a float: round the value at one decimal place. -/
def pyRound1 (f : PyFloat) : PyFloat :=
  ⟨rne ((f.mantissa : ℚ) * 10 / (10 : ℚ) ^ f.exp), 1⟩

/-- Python str of a float value mantissa / 10^exp (always shows at least one
digit after the decimal point, e.g. "12.0"). -/
def pyFloatStr (f : PyFloat) : String :=
  let e := max f.exp 1
  let m := f.mantissa.natAbs * 10 ^ (e - f.exp)
  (if f.mantissa < 0 then "-" else "")
    ++ natStr (m / 10 ^ e) ++ "." ++ ⟨padZeros e (natChars (m % 10 ^ e))⟩

/-- Python round(q, 2): keep two decimal places, ties to even. -/
def round2 (q : ℚ) : ℚ :=
  (rne (q * 100) : ℚ) / 100

/-! ### Python string helpers used by the sources -/

/-- Whitespace characters stripped by Python's str.strip(). -/
def isPySpace (c : Char) : Bool :=
  c == ' ' || c == '\t' || c == '\n' || c == '\r' || c == '\x0b' || c == '\x0c'

/-- Python str.strip(): drop leading and trailing whitespace. -/
def pyStrip (s : String) : String :=
  ⟨((s.data.dropWhile isPySpace).reverse.dropWhile isPySpace).reverse⟩

/-- Uppercase hexadecimal digit, as used by Python's %X / :02X formatting. -/
def upperHexDigit (n : Nat) : Char :=
  if n < 10 then digitChar n else Char.ofNat (55 + n)

/-- Two-digit uppercase hex rendering of a byte (Python format :02X). -/
def hex2 (n : Nat) : String :=
  ⟨[upperHexDigit (n / 16 % 16), upperHexDigit (n % 16)]⟩

/-- Source int_to_hex: convert int color (from PyMuPDF) to hex "#RRGGBB". -/
def int_to_hex (color_int : Nat) : String :=
  "#" ++ hex2 ((color_int >>> 16) &&& 255) ++ hex2 ((color_int >>> 8) &&& 255)
    ++ hex2 (color_int &&& 255)

/-! ### Counters: Python collections.Counter as insertion-ordered association
lists of (key, count) -/

/-- A Python Counter over string keys: insertion-ordered (key, count) pairs. -/
abbrev PyCounter : Type :=
  List (String × Nat)

/-- The empty Counter(). -/
def cempty : PyCounter :=
  []

/-- Counter lookup c[k] (0 when the key is absent). -/
def cget (c : PyCounter) (k : String) : Nat :=
  match List.find? (fun p => p.1 == k) c with
  | some p => p.2
  | none => 0

/-- The keys of a Counter, in insertion order (CPython dict iteration order). -/
def ckeys (c : PyCounter) : List String :=
  List.map Prod.fst c

/-- sum(c.values()). -/
def ctotal (c : PyCounter) : Nat :=
  (List.map Prod.snd c).sum

/-- c[k] += n: bump an existing entry in place, or append a new entry
(CPython dicts keep insertion order). -/
def cincrBy (c : PyCounter) (k : String) (n : Nat) : PyCounter :=
  if List.any c (fun p => p.1 == k) then
    List.map (fun p => if p.1 == k then (p.1, p.2 + n) else p) c
  else c ++ [(k, n)]

/-- combos[un_com] += 1. -/
def cincr (c : PyCounter) (k : String) : PyCounter :=
  cincrBy c k 1

/-- Counter addition a + b: element-wise sum keeping only positive counts;
keys of a first (in order), then keys only in b (in order). -/
def cadd (a b : PyCounter) : PyCounter :=
  List.filter (fun p => decide (0 < p.2))
      (List.map (fun p => (p.1, p.2 + cget b p.1)) a)
    ++ List.filter
        (fun p => !(List.any a (fun q => q.1 == p.1)) && decide (0 < p.2)) b

/-- Counter.update(other): in-place element-wise addition, appending keys of
other that are new, in other's iteration order. -/
def cupdate (a b : PyCounter) : PyCounter :=
  List.foldl (fun acc p => cincrBy acc p.1 p.2) a b

/-- A well-formed frequency mapping: no key occurs twice. -/
def NodupKeys (c : PyCounter) : Prop :=
  (ckeys c).Nodup

instance (c : PyCounter) : Decidable (NodupKeys c) :=
  List.nodupDecidable (ckeys c)

/-! ### The document model seen by Document_Format_Validation.py -/

/-- One text span dict from page.get_text("dict"): every field the source
reads is optional, matching span.get with defaults. -/
structure TSpan where
  text : Option String
  font : Option String
  size : Option PyFloat
  color : Option Nat
  flags : Option Int
  ascender : Option PyFloat
  descender : Option PyFloat
  bbox : Option (List ℚ)
deriving DecidableEq

/-- One line dict: its spans (line.get("spans", [])). -/
structure TLine where
  spans : List TSpan
deriving DecidableEq

/-- One block dict: its lines (block.get("lines", []); an absent key is
modelled as the empty list it defaults to). -/
structure TBlock where
  lines : List TLine
deriving DecidableEq

/-- One embedded raster image occurrence, with the fields doc.extract_image
returns; every field the source reads is optional, matching .get defaults. -/
structure PdfImage where
  width : Option Nat
  height : Option Nat
  ext : Option String
  colorspace : Option Int
  bpc : Option Nat
  image : Option (List Nat)
deriving DecidableEq

/-- One page: its text blocks and its image occurrences
(page.get_images(full=True), one entry per occurrence). -/
structure PdfPage where
  blocks : List TBlock
  images : List PdfImage
deriving DecidableEq

/-- A PDF file as fitz.open sees it: either unreadable (fitz.open raises)
or a readable list of pages. -/
inductive PDoc where
  | unreadable
  | readable (pages : List PdfPage)
deriving DecidableEq

/-! ### Signature extraction (extract_formatting_combos, extract_image_combos) -/

/-- The text signature key
f"{size}_{flags}_{font}_{color_hex}_{ascender}_{descender}" with the source's
defaults: size round(get("size",0),1), flags get("flags",""),
font get("font","Unknown"), color get("color",0), ascender/descender
get(...,0). -/
def makeUnCom (sp : TSpan) : String :=
  let sizeStr := match sp.size with
    | none => "0"
    | some f => pyFloatStr (pyRound1 f)
  let flagsStr := match sp.flags with
    | none => ""
    | some n => intStr n
  let font := sp.font.getD "Unknown"
  let color_hex := int_to_hex (sp.color.getD 0)
  let ascStr := match sp.ascender with
    | none => "0"
    | some f => pyFloatStr f
  let descStr := match sp.descender with
    | none => "0"
    | some f => pyFloatStr f
  sizeStr ++ "_" ++ flagsStr ++ "_" ++ font ++ "_" ++ color_hex ++ "_"
    ++ ascStr ++ "_" ++ descStr

/-- One entry of detailed_chars: text, page, un_com, color, bbox. -/
structure DChar where
  text : String
  page : Nat
  un_com : String
  color : String
  bbox : List ℚ
deriving DecidableEq

/-- Body of the innermost loop of extract_formatting_combos: strip the text,
skip the span when empty, otherwise count its signature and record the span. -/
def procSpan (st : PyCounter × List DChar) (page_num : Nat) (sp : TSpan) :
    PyCounter × List DChar :=
  let text := pyStrip (sp.text.getD "")
  if text = "" then st
  else
    let un_com := makeUnCom sp
    (cincr st.1 un_com,
      st.2 ++ [⟨text, page_num, un_com, int_to_hex (sp.color.getD 0),
        sp.bbox.getD []⟩])

/-- for span in line.get("spans", []). -/
def procLine (st : PyCounter × List DChar) (page_num : Nat) (l : TLine) :
    PyCounter × List DChar :=
  List.foldl (fun a sp => procSpan a page_num sp) st l.spans

/-- for line in block.get("lines", []). -/
def procBlock (st : PyCounter × List DChar) (page_num : Nat) (b : TBlock) :
    PyCounter × List DChar :=
  List.foldl (fun a l => procLine a page_num l) st b.lines

/-- for block in dict_text["blocks"]. -/
def procPage (st : PyCounter × List DChar) (page_num : Nat) (p : PdfPage) :
    PyCounter × List DChar :=
  List.foldl (fun a b => procBlock a page_num b) st p.blocks

/-- The page loop of extract_formatting_combos (enumerate(doc)). -/
def extract_pages (pages : List PdfPage) : PyCounter × List DChar :=
  List.foldl (fun a pr => procPage a pr.1 pr.2) (cempty, []) pages.enum

/-- Source extract_formatting_combos: fitz.open may fail (DocumentUnreadable),
otherwise walk pages, blocks, lines, spans accumulating combos and
detailed_chars. -/
def extract_formatting_combos : PDoc → Except Unit (PyCounter × List DChar)
  | .unreadable => .error ()
  | .readable pages => .ok (extract_pages pages)

/-- The image signature key
f"IMG_{width}_{height}_{ext}_{cs}_0_0_{bpc}_{size}" with the source's
defaults (width/height/bpc 0, ext/colorspace "unk", image b""). -/
def mkImgKey (img : PdfImage) : String :=
  "IMG_" ++ natStr (img.width.getD 0) ++ "_" ++ natStr (img.height.getD 0)
    ++ "_" ++ img.ext.getD "unk" ++ "_"
    ++ (match img.colorspace with
        | none => "unk"
        | some n => intStr n)
    ++ "_0_0_" ++ natStr (img.bpc.getD 0) ++ "_"
    ++ natStr (img.image.getD []).length

/-- The page/image loops of extract_image_combos. -/
def extract_images (pages : List PdfPage) : PyCounter :=
  List.foldl
    (fun c p => List.foldl (fun c2 img => cincr c2 (mkImgKey img)) c p.images)
    cempty pages

/-- Source extract_image_combos: fitz.open may fail, otherwise count one
signature per image occurrence per page. -/
def extract_image_combos : PDoc → Except Unit PyCounter
  | .unreadable => .error ()
  | .readable pages => .ok (extract_images pages)

/-! ### Step 1: training (the Train Model button handler) -/

/-- Outcome of the Train Model handler: the warning when no files were
uploaded, success, or an uncaught exception from an unreadable document. -/
inductive TrainOut where
  | warnNoFiles
  | trained
  | raised
deriving DecidableEq

/-- The training loop body: per uploaded file, extract text and image combos
(fitz.open raising aborts the loop, leaving the state as mutated so far) and
update the session counter with their sum. -/
def trainLoop : PyCounter → List PDoc → PyCounter × TrainOut
  | acc, [] => (acc, .trained)
  | acc, f :: fs =>
    match extract_formatting_combos f with
    | .error _ => (acc, .raised)
    | .ok (text_combos, _) =>
      match extract_image_combos f with
      | .error _ => (acc, .raised)
      | .ok image_combos =>
        trainLoop (cupdate acc (cadd text_combos image_combos)) fs

/-- The Train Model handler: warn (keeping the prior state) when no files
were uploaded, otherwise reset the session counter to Counter() and run the
training loop.  The first component is the observable session baseline after
the handler returns. -/
def train_model (state : PyCounter) (train_files : List PDoc) :
    PyCounter × TrainOut :=
  if train_files.isEmpty then (state, .warnNoFiles)
  else trainLoop cempty train_files

/-! ### Step 2: validation (the Validate Test Document button handler) -/

/-- The fraud score of lines 123–131: unexpected keys are the candidate keys
absent from the baseline; the score is the occurrence-weighted share of
unexpected keys, rounded to two decimals, and 0 when the candidate has no
occurrences at all. -/
def fraud_score (trained test : PyCounter) : ℚ :=
  let unexpected := List.filter (fun k => !(List.contains (ckeys trained) k))
    (ckeys test)
  let total_used := ctotal test
  let unexpected_used := (List.map (cget test) unexpected).sum
  if total_used = 0 then 0
  else round2 ((unexpected_used : ℚ) / (total_used : ℚ) * 100)

/-- The data computed by one successful validation pass. -/
structure ScoreResult where
  unexpected : List String
  missing : List String
  score : ℚ
  suspicious : List DChar
deriving DecidableEq

/-- Outcome of the Validate Test Document handler: the train-first warning
(the BaselineNotReady signal of the spec), the upload-a-test-PDF warning, an
uncaught exception from an unreadable candidate, or a score. -/
inductive ValidateOut where
  | baselineNotReady
  | noTestFile
  | raised
  | scored (r : ScoreResult)
deriving DecidableEq

/-- The Validate Test Document handler (lines 110–137): refuse when the
trained counter is empty, refuse when no test file was uploaded, otherwise
extract the candidate's combos, diff against the baseline and score. -/
def validate (trained : PyCounter) (test_file : Option PDoc) : ValidateOut :=
  if trained.isEmpty then .baselineNotReady
  else
    match test_file with
    | none => .noTestFile
    | some d =>
      match extract_formatting_combos d with
      | .error _ => .raised
      | .ok (test_text_combos, detailed_chars) =>
        match extract_image_combos d with
        | .error _ => .raised
        | .ok test_image_combos =>
          let test_combos := cadd test_text_combos test_image_combos
          let unexpected :=
            List.filter (fun k => !(List.contains (ckeys trained) k))
              (ckeys test_combos)
          let missing :=
            List.filter (fun k => !(List.contains (ckeys test_combos) k))
              (ckeys trained)
          .scored ⟨unexpected, missing, fraud_score trained test_combos,
            List.filter (fun c => List.contains unexpected c.un_com)
              detailed_chars⟩

/-! ### Document_MetaData_Analysis.py -/

/-- The SUSPICIOUS_KEYWORDS list of the source. -/
def SUSPICIOUS_KEYWORDS : List String :=
  ["microsoft word", "libreoffice", "cutepdf", "openoffice", "pdf creator",
   "ilovepdf", "smallpdf", "pdfescape", "wondershare", "foxit", "nitro",
   "sejda", "online2pdf", "Microsoft: Print To PDF", "Adobe"]

/-- Source remove_non_ascii: keep only ASCII characters
(encode('ascii','ignore')). -/
def remove_non_ascii (text : String) : String :=
  ⟨List.filter (fun c => c.toNat < 128) text.data⟩

/-- Python str.lower() on the ASCII range (its arguments here are ASCII:
keywords are literals and values pass through remove_non_ascii first). -/
def pyLower (s : String) : String :=
  ⟨List.map
    (fun c => if 65 ≤ c.toNat ∧ c.toNat ≤ 90 then Char.ofNat (c.toNat + 32)
      else c) s.data⟩

/-- Python substring test: needle in hay. -/
def strContains (hay needle : String) : Bool :=
  List.any hay.data.tails (fun t => List.isPrefixOf needle.data t)

/-- Days per month, with leap years (datetime's calendar validation). -/
def daysInMonth (y m : Nat) : Nat :=
  if m = 2 then
    (if (y % 4 = 0 ∧ y % 100 ≠ 0) ∨ y % 400 = 0 then 29 else 28)
  else if m = 4 ∨ m = 6 ∨ m = 9 ∨ m = 11 then 30 else 31

/-- Numeric value of a digit string (most significant first). -/
def digitsVal (cs : List Char) : Nat :=
  List.foldl (fun a c => a * 10 + (c.toNat - 48)) 0 cs

/-- strptime(t, "%Y%m%d%H%M%S") on the standard full-form 14-digit PDF date
stamp: the result as the number yyyymmddhhmmss (datetime comparison is then
numeric comparison), or None when the text does not parse as a valid date. -/
def parse14 (t : String) : Option Nat :=
  if t.length = 14 ∧ List.all t.data (fun c => c.isDigit) then
    let y := digitsVal (t.data.take 4)
    let mo := digitsVal ((t.data.drop 4).take 2)
    let d := digitsVal ((t.data.drop 6).take 2)
    let h := digitsVal ((t.data.drop 8).take 2)
    let mi := digitsVal ((t.data.drop 10).take 2)
    let s := digitsVal ((t.data.drop 12).take 2)
    if 1 ≤ y ∧ 1 ≤ mo ∧ mo ≤ 12 ∧ 1 ≤ d ∧ d ≤ daysInMonth y mo ∧ h ≤ 23
        ∧ mi ≤ 59 ∧ s ≤ 59 then
      some (digitsVal t.data)
    else none
  else none

/-- Source clean_pdf_date: drop a leading "D:", take 14 characters, parse. -/
def clean_pdf_date (date_str : String) : Option Nat :=
  let date_str := if date_str.startsWith "D:" then date_str.drop 2
    else date_str
  parse14 (date_str.take 14)

/-- strftime("%Y-%m-%d %H:%M:%S") on a parsed yyyymmddhhmmss value. -/
def fmtDate (v : Nat) : String :=
  ⟨padZeros 4 (natChars (v / 10 ^ 10))
    ++ ('-' :: padZeros 2 (natChars (v / 10 ^ 8 % 100)))
    ++ ('-' :: padZeros 2 (natChars (v / 10 ^ 6 % 100)))
    ++ (' ' :: padZeros 2 (natChars (v / 10 ^ 4 % 100)))
    ++ (':' :: padZeros 2 (natChars (v / 10 ^ 2 % 100)))
    ++ (':' :: padZeros 2 (natChars (v % 100)))⟩

/-- The PDF metadata record PyPDF2 exposes; the fields the source reads are
optional (meta.get with '' default); rawJson models
json.dumps(dict(meta), indent=2). -/
structure PdfMeta where
  producer : Option String
  creator : Option String
  title : Option String
  creationDate : Option String
  modDate : Option String
  rawJson : String
deriving DecidableEq

/-- What happens inside the try body of analyze_pdf: either some exception is
raised (PdfReader failing on the file, a non-string metadata value, ...) with
a message, or the metadata (possibly None) is read successfully. -/
inductive MetaInput where
  | failure (msg : String)
  | ok (meta : Option PdfMeta)
deriving DecidableEq

/-- The result dictionary analyze_pdf returns. -/
structure AnalyzeResult where
  fileName : String
  edited : Option Bool
  reasons : String
  creationDate : String
  modificationDate : String
  producer : String
  creator : String
  title : String
  fullMetadata : String
deriving DecidableEq

/-- os.path.basename: the part after the last '/'. -/
def basename (p : String) : String :=
  ⟨(List.takeWhile (fun c => !(c == '/')) p.data.reverse).reverse⟩

/-- The inner keyword loop of analyze_pdf for one metadata key: one reason
line per suspicious keyword found (case-insensitively) in the cleaned
value. -/
def keywordReasons (keyName val : String) : List String :=
  List.map
    (fun w => "Suspicious keyword \x27" ++ w ++ "\x27 found in " ++ keyName
      ++ ": " ++ remove_non_ascii val)
    (List.filter
      (fun w => strContains (pyLower (remove_non_ascii val)) (pyLower w))
      SUSPICIOUS_KEYWORDS)

/-- Source analyze_pdf: on any exception in the try body, the error record
(Edited None, Reasons the error message, other fields empty); otherwise dates
are parsed, the date-order check and the keyword scan set Edited and collect
reasons. -/
def analyze_pdf (file_path : String) (input : MetaInput) : AnalyzeResult :=
  match input with
  | .failure msg =>
    ⟨basename file_path, none, "Error: " ++ msg, "", "", "", "", "",
      "\x7b\x7d"⟩
  | .ok meta =>
    let producer := match meta with
      | some m => m.producer.getD ""
      | none => ""
    let creator := match meta with
      | some m => m.creator.getD ""
      | none => ""
    let title := match meta with
      | some m => m.title.getD ""
      | none => ""
    let creation_date := match meta with
      | some m => clean_pdf_date (m.creationDate.getD "")
      | none => none
    let mod_date := match meta with
      | some m => clean_pdf_date (m.modDate.getD "")
      | none => none
    let creationStr := match creation_date with
      | some v => fmtDate v
      | none => ""
    let modStr := match mod_date with
      | some v => fmtDate v
      | none => ""
    let dateFlag := match creation_date, mod_date with
      | some cv, some mv => decide (cv < mv)
      | _, _ => false
    let kw := keywordReasons "/Producer" producer
      ++ keywordReasons "/Creator" creator
      ++ keywordReasons "/Title" title
    let reasons :=
      (if dateFlag then ["Modification date is later than creation date."]
        else []) ++ kw
    ⟨basename file_path, some (dateFlag || !kw.isEmpty),
      String.intercalate "\n" reasons, creationStr, modStr, producer,
      creator, title,
      match meta with
      | some m => m.rawJson
      | none => "\x7b\x7d"⟩

/-! ### General lemmas -/

/-- A property preserved by every fold step is preserved by the fold. -/
theorem foldl_preserve {α β : Type} (P : α → Prop) (f : α → β → α)
    (hf : ∀ a b, P a → P (f a b)) :
    ∀ (l : List β) (a : α), P a → P (List.foldl f a l) := by
  intro l
  induction l with
  | nil => intro a ha; exact ha
  | cons x xs ih => intro a ha; exact ih (f a x) (hf a x ha)

/-! ### Counter lemmas -/

theorem ckeys_map_bump (c : PyCounter) (k : String) (n : Nat) :
    ckeys (List.map (fun p => if p.1 == k then (p.1, p.2 + n) else p) c)
      = ckeys c := by
  simp only [ckeys, List.map_map]
  apply List.map_congr_left
  intro p _
  simp only [Function.comp_apply]
  split <;> rfl

theorem not_mem_ckeys_of_any_eq_false {c : PyCounter} {k : String}
    (h : List.any c (fun p => p.1 == k) = false) : k ∉ ckeys c := by
  intro hk
  simp only [ckeys, List.mem_map] at hk
  obtain ⟨p, hp, hpk⟩ := hk
  have ht : List.any c (fun p => p.1 == k) = true := by
    simp only [List.any_eq_true]
    exact ⟨p, hp, by simp [hpk]⟩
  simp [ht] at h

theorem nodup_cincrBy {c : PyCounter} (k : String) (n : Nat)
    (h : NodupKeys c) : NodupKeys (cincrBy c k n) := by
  unfold cincrBy
  split
  · unfold NodupKeys
    rw [ckeys_map_bump]
    exact h
  · rename_i hany
    unfold NodupKeys
    have hk : k ∉ ckeys c :=
      not_mem_ckeys_of_any_eq_false (Bool.eq_false_iff.mpr hany)
    simp only [ckeys, List.map_append, List.map_cons, List.map_nil]
    rw [List.nodup_append]
    exact ⟨h, List.nodup_singleton k, by
      intro a ha hb
      simp only [List.mem_singleton] at hb
      exact hk (hb ▸ ha)⟩

theorem nodup_cincr {c : PyCounter} (k : String) (h : NodupKeys c) :
    NodupKeys (cincr c k) :=
  nodup_cincrBy k 1 h

theorem nodup_cupdate {a : PyCounter} (b : PyCounter) (h : NodupKeys a) :
    NodupKeys (cupdate a b) :=
  foldl_preserve NodupKeys _ (fun _s p hs => nodup_cincrBy p.1 p.2 hs) b a h

theorem ckeys_sublist_of_filter (q : String × Nat → Bool) (c : PyCounter) :
    (ckeys (List.filter q c)).Sublist (ckeys c) :=
  List.Sublist.map Prod.fst (List.filter_sublist c)

theorem nodup_cadd {a b : PyCounter} (ha : NodupKeys a) (hb : NodupKeys b) :
    NodupKeys (cadd a b) := by
  unfold cadd NodupKeys
  simp only [ckeys, List.map_append]
  rw [List.nodup_append]
  refine ⟨?_, ?_, ?_⟩
  · have hsub : (ckeys (List.filter (fun p => decide (0 < p.2))
        (List.map (fun p => (p.1, p.2 + cget b p.1)) a))).Sublist
        (ckeys (List.map (fun p => (p.1, p.2 + cget b p.1)) a)) :=
      ckeys_sublist_of_filter _ _
    have hkeq : ckeys (List.map (fun p => (p.1, p.2 + cget b p.1)) a)
        = ckeys a := by
      simp only [ckeys, List.map_map]
      apply List.map_congr_left
      intro p _
      rfl
    exact List.Nodup.sublist (by rw [hkeq] at hsub; exact hsub) ha
  · exact List.Nodup.sublist (ckeys_sublist_of_filter _ b) hb
  · intro k hk1 hk2
    have hmem : k ∈ ckeys a := by
      have hsub : (ckeys (List.filter (fun p => decide (0 < p.2))
          (List.map (fun p => (p.1, p.2 + cget b p.1)) a))).Sublist
          (ckeys (List.map (fun p => (p.1, p.2 + cget b p.1)) a)) :=
        ckeys_sublist_of_filter _ _
      have hkeq : ckeys (List.map (fun p => (p.1, p.2 + cget b p.1)) a)
          = ckeys a := by
        simp only [ckeys, List.map_map]
        apply List.map_congr_left
        intro p _
        rfl
      exact (hkeq ▸ hsub).subset hk1
    simp only [ckeys, List.mem_map] at hk2
    obtain ⟨p, hp, hpk⟩ := hk2
    have hcond := List.of_mem_filter hp
    simp only [Bool.and_eq_true, Bool.not_eq_true] at hcond
    subst hpk
    exact absurd hmem
      (not_mem_ckeys_of_any_eq_false (by
        have hc1 := hcond.1
        simpa using hc1))

/-! ### The extracted counters are well-formed frequency mappings -/

theorem nodup_fst_procSpan {st : PyCounter × List DChar} (page_num : Nat)
    (sp : TSpan) (h : NodupKeys st.1) : NodupKeys (procSpan st page_num sp).1 := by
  by_cases hc : pyStrip (sp.text.getD "") = ""
  · simpa [procSpan, hc] using h
  · simpa [procSpan, hc] using nodup_cincr (makeUnCom sp) h

theorem nodup_fst_procLine {st : PyCounter × List DChar} (page_num : Nat)
    (l : TLine) (h : NodupKeys st.1) : NodupKeys (procLine st page_num l).1 :=
  foldl_preserve (fun s => NodupKeys s.1) _
    (fun _s sp hs => nodup_fst_procSpan page_num sp hs) l.spans st h

theorem nodup_fst_procBlock {st : PyCounter × List DChar} (page_num : Nat)
    (b : TBlock) (h : NodupKeys st.1) : NodupKeys (procBlock st page_num b).1 :=
  foldl_preserve (fun s => NodupKeys s.1) _
    (fun _s l hs => nodup_fst_procLine page_num l hs) b.lines st h

theorem nodup_fst_procPage {st : PyCounter × List DChar} (page_num : Nat)
    (p : PdfPage) (h : NodupKeys st.1) : NodupKeys (procPage st page_num p).1 :=
  foldl_preserve (fun s => NodupKeys s.1) _
    (fun _s b hs => nodup_fst_procBlock page_num b hs) p.blocks st h

theorem nodup_extract_pages (pages : List PdfPage) :
    NodupKeys (extract_pages pages).1 := by
  unfold extract_pages
  refine foldl_preserve (fun (s : PyCounter × List DChar) => NodupKeys s.1)
    (fun a pr => procPage a pr.1 pr.2)
    (fun _s pr hs => nodup_fst_procPage pr.1 pr.2 hs) pages.enum (cempty, []) ?_
  simp [NodupKeys, ckeys, cempty]

theorem nodup_extract_images (pages : List PdfPage) :
    NodupKeys (extract_images pages) := by
  unfold extract_images
  refine foldl_preserve NodupKeys
    (fun c p => List.foldl (fun c2 img => cincr c2 (mkImgKey img)) c p.images)
    (fun c p hc =>
      foldl_preserve NodupKeys (fun c2 img => cincr c2 (mkImgKey img))
        (fun c2 img h2 => nodup_cincr _ h2) p.images c hc)
    pages cempty ?_
  simp [NodupKeys, ckeys, cempty]

/-! ### Lookup and sum lemmas over counters -/

theorem cget_cons_self (k : String) (v : Nat) (t : PyCounter) :
    cget ((k, v) :: t) k = v := by
  simp [cget, List.find?_cons_of_pos]

theorem cget_cons_ne {k k' : String} (hne : k' ≠ k) (v : Nat) (t : PyCounter) :
    cget ((k, v) :: t) k' = cget t k' := by
  have : ((k, v).1 == k') = false := by
    simp [Ne.symm hne]
  simp [cget, List.find?_cons_of_neg, this]

/-- Over a duplicate-free counter, summing the looked-up counts of the keys
that satisfy a predicate is summing the counts of the entries that satisfy
it. -/
theorem sum_cget_filter (P : String → Bool) :
    ∀ (c : PyCounter), NodupKeys c →
      (List.map (cget c) (List.filter P (ckeys c))).sum
        = (List.map Prod.snd (List.filter (fun p => P p.1) c)).sum := by
  intro c
  induction c with
  | nil => intro _; rfl
  | cons hd t ih =>
    intro hnd
    obtain ⟨k, v⟩ := hd
    have hnd' : NodupKeys t := by
      have := hnd
      simp only [NodupKeys, ckeys, List.map_cons, List.nodup_cons] at this
      exact this.2
    have hknot : k ∉ ckeys t := by
      have := hnd
      simp only [NodupKeys, ckeys, List.map_cons, List.nodup_cons] at this
      exact this.1
    have hmap : List.map (cget ((k, v) :: t)) (List.filter P (ckeys t))
        = List.map (cget t) (List.filter P (ckeys t)) := by
      apply List.map_congr_left
      intro k' hk'
      have hk'mem : k' ∈ ckeys t := List.mem_of_mem_filter hk'
      have hne : k' ≠ k := fun he => hknot (he ▸ hk'mem)
      exact cget_cons_ne hne v t
    simp only [ckeys] at hmap ih
    by_cases hP : P k
    · simp only [ckeys, List.map_cons, List.filter_cons]
      rw [if_pos hP, if_pos hP]
      simp only [List.map_cons, List.sum_cons]
      rw [cget_cons_self, hmap, ih hnd']
    · simp only [ckeys, List.map_cons, List.filter_cons]
      rw [if_neg hP, if_neg hP]
      rw [hmap, ih hnd']

/-- The occurrence-weighted size of any key subset is at most the total. -/
theorem sum_cget_filter_le_ctotal (P : String → Bool) (c : PyCounter)
    (h : NodupKeys c) :
    (List.map (cget c) (List.filter P (ckeys c))).sum ≤ ctotal c := by
  rw [sum_cget_filter P c h]
  unfold ctotal
  have hsub : (List.map Prod.snd (List.filter (fun p => P p.1) c)).Sublist
      (List.map Prod.snd c) :=
    List.Sublist.map Prod.snd (List.filter_sublist c)
  exact List.Sublist.sum_le_sum hsub (fun a _ => Nat.zero_le a)

/-! ### Bounds for round-half-to-even -/

theorem le_rne_of_le (n : ℤ) (q : ℚ) (h : (n : ℚ) ≤ q) : n ≤ rne q := by
  unfold rne
  have hfl : n ≤ ⌊q⌋ := Int.le_floor.mpr h
  split
  · split
    · exact hfl
    · omega
  · have : n ≤ ⌊q + 1 / 2⌋ := Int.le_floor.mpr (by linarith)
    exact this

theorem rne_le_of_le (q : ℚ) (n : ℤ) (h : q ≤ (n : ℚ)) : rne q ≤ n := by
  unfold rne
  split
  · rename_i htie
    have hflq : (⌊q⌋ : ℚ) = q - 1 / 2 := by linarith
    have hlt : ⌊q⌋ < n := by
      have : (⌊q⌋ : ℚ) < (n : ℚ) := by rw [hflq]; linarith
      exact_mod_cast this
    split <;> omega
  · by_contra hcon
    push_neg at hcon
    have : (n + 1 : ℤ) ≤ ⌊q + 1 / 2⌋ := by omega
    have h2 : ((n + 1 : ℤ) : ℚ) ≤ q + 1 / 2 := Int.le_floor.mp this
    push_cast at h2
    linarith

theorem rne_nonneg (q : ℚ) (h : 0 ≤ q) : 0 ≤ rne q :=
  le_rne_of_le 0 q (by exact_mod_cast h)

theorem round2_nonneg (q : ℚ) (h : 0 ≤ q) : 0 ≤ round2 q := by
  unfold round2
  have : (0 : ℤ) ≤ rne (q * 100) := rne_nonneg _ (by positivity)
  have hc : (0 : ℚ) ≤ (rne (q * 100) : ℚ) := by exact_mod_cast this
  positivity

theorem round2_le_100 (q : ℚ) (h : q ≤ 100) : round2 q ≤ 100 := by
  unfold round2
  have h1 : q * 100 ≤ ((10000 : ℤ) : ℚ) := by push_cast; linarith
  have h2 : rne (q * 100) ≤ (10000 : ℤ) := rne_le_of_le _ _ h1
  have h3 : ((rne (q * 100) : ℤ) : ℚ) ≤ ((10000 : ℤ) : ℚ) := by
    exact_mod_cast h2
  push_cast at h3
  linarith

/-! ### Score bounds -/

theorem fraud_score_bounds (trained c : PyCounter) (h : NodupKeys c) :
    0 ≤ fraud_score trained c ∧ fraud_score trained c ≤ 100 := by
  unfold fraud_score
  by_cases h0 : ctotal c = 0
  · simp [h0]
  · simp only [h0, if_neg, if_false]
    have hle : (List.map (cget c)
        (List.filter (fun k => !(List.contains (ckeys trained) k)) (ckeys c))).sum
        ≤ ctotal c :=
      sum_cget_filter_le_ctotal _ c h
    set u := (List.map (cget c)
      (List.filter (fun k => !(List.contains (ckeys trained) k)) (ckeys c))).sum
      with hu
    have htpos : 0 < (ctotal c : ℚ) := by
      have : 0 < ctotal c := Nat.pos_of_ne_zero h0
      exact_mod_cast this
    have hq0 : 0 ≤ (u : ℚ) / (ctotal c : ℚ) * 100 := by positivity
    have hq100 : (u : ℚ) / (ctotal c : ℚ) * 100 ≤ 100 := by
      have hdiv : (u : ℚ) / (ctotal c : ℚ) ≤ 1 := by
        rw [div_le_one htpos]
        exact_mod_cast hle
      linarith
    exact ⟨round2_nonneg _ hq0, round2_le_100 _ hq100⟩

/-! ### Whitespace-only spans contribute nothing (C6 machinery) -/

/-- A span survives extraction iff its stripped text is non-empty. -/
def keepSpan (sp : TSpan) : Bool :=
  !(pyStrip (sp.text.getD "") == "")

/-- Remove every whitespace-only span from a document. -/
def removeBlankSpans (pages : List PdfPage) : List PdfPage :=
  List.map
    (fun p => ⟨List.map
      (fun b => ⟨List.map (fun l => ⟨List.filter keepSpan l.spans⟩) b.lines⟩)
      p.blocks, p.images⟩)
    pages

theorem procSpan_blank {sp : TSpan} (st : PyCounter × List DChar)
    (page_num : Nat) (h : pyStrip (sp.text.getD "") = "") :
    procSpan st page_num sp = st := by
  simp [procSpan, h]

theorem foldl_procSpan_filter (page_num : Nat) :
    ∀ (spans : List TSpan) (st : PyCounter × List DChar),
      List.foldl (fun a sp => procSpan a page_num sp) st
        (List.filter keepSpan spans)
      = List.foldl (fun a sp => procSpan a page_num sp) st spans := by
  intro spans
  induction spans with
  | nil => intro st; rfl
  | cons sp rest ih =>
    intro st
    by_cases hk : keepSpan sp = true
    · simp only [List.filter_cons, hk, if_pos, List.foldl_cons]
      exact ih (procSpan st page_num sp)
    · have hblank : pyStrip (sp.text.getD "") = "" := by
        have := hk
        simp only [keepSpan, Bool.not_eq_true', beq_iff_eq,
          Bool.not_eq_true] at this
        simpa using this
      simp only [List.filter_cons, hk, Bool.false_eq_true, if_neg,
        List.foldl_cons]
      rw [procSpan_blank st page_num hblank]
      exact ih st

theorem procLine_filter (st : PyCounter × List DChar) (page_num : Nat)
    (l : TLine) :
    procLine st page_num ⟨List.filter keepSpan l.spans⟩
      = procLine st page_num l :=
  foldl_procSpan_filter page_num l.spans st

theorem procBlock_filter (st : PyCounter × List DChar) (page_num : Nat)
    (b : TBlock) :
    procBlock st page_num
        ⟨List.map (fun l => ⟨List.filter keepSpan l.spans⟩) b.lines⟩
      = procBlock st page_num b := by
  unfold procBlock
  rw [List.foldl_map]
  exact List.foldl_ext _ _ st (fun a l _ => procLine_filter a page_num l)

theorem procPage_filter (st : PyCounter × List DChar) (page_num : Nat)
    (p : PdfPage) (imgs : List PdfImage) :
    procPage st page_num
        ⟨List.map
          (fun b => ⟨List.map (fun l => ⟨List.filter keepSpan l.spans⟩)
            b.lines⟩) p.blocks, imgs⟩
      = procPage st page_num p := by
  unfold procPage
  rw [List.foldl_map]
  exact List.foldl_ext _ _ st (fun a b _ => procBlock_filter a page_num b)

theorem foldl_enumFrom_removeBlank :
    ∀ (pages : List PdfPage) (n : Nat) (st : PyCounter × List DChar),
      List.foldl (fun a pr => procPage a pr.1 pr.2) st
        (List.enumFrom n (removeBlankSpans pages))
      = List.foldl (fun a pr => procPage a pr.1 pr.2) st
          (List.enumFrom n pages) := by
  intro pages
  induction pages with
  | nil => intro n st; rfl
  | cons p ps ih =>
    intro n st
    simp only [removeBlankSpans, List.map_cons, List.enumFrom,
      List.foldl_cons]
    rw [procPage_filter st n p p.images]
    exact ih (n + 1) (procPage st n p)

theorem extract_pages_removeBlank (pages : List PdfPage) :
    extract_pages (removeBlankSpans pages) = extract_pages pages := by
  unfold extract_pages
  simp only [List.enum]
  exact foldl_enumFrom_removeBlank pages 0 (cempty, [])

theorem extract_images_removeBlank (pages : List PdfPage) :
    extract_images (removeBlankSpans pages) = extract_images pages := by
  unfold extract_images removeBlankSpans
  rw [List.foldl_map]

/-! ### Text keys and image keys never collide (C7 machinery) -/

theorem str_head_append (s t : String) (c : Char)
    (h : s.data.head? = some c) : (s ++ t).data.head? = some c := by
  rw [String.data_append]
  cases hd : s.data with
  | nil => rw [hd] at h; simp at h
  | cons a as =>
    rw [hd] at h
    simp only [List.head?_cons, Option.some.injEq] at h
    simp [h]

theorem natCharsAux_head (fuel : Nat) :
    ∀ n, fuel ≠ 0 →
      ∃ d, d < 10 ∧ (natCharsAux fuel n).head? = some (digitChar d) := by
  induction fuel with
  | zero => intro n h; exact absurd rfl h
  | succ f ih =>
    intro n _
    by_cases hn : n < 10
    · exact ⟨n, hn, by simp [natCharsAux, hn]⟩
    · cases f with
      | zero =>
        refine ⟨n % 10, Nat.mod_lt n (by omega), ?_⟩
        simp [natCharsAux, hn]
      | succ f2 =>
        obtain ⟨d, hd, hh⟩ := ih (n / 10) (Nat.succ_ne_zero f2)
        refine ⟨d, hd, ?_⟩
        rw [show natCharsAux (f2 + 1 + 1) n
          = if n < 10 then [digitChar n]
            else natCharsAux (f2 + 1) (n / 10) ++ [digitChar (n % 10)]
          from rfl]
        rw [if_neg hn]
        cases hl : natCharsAux (f2 + 1) (n / 10) with
        | nil => rw [hl] at hh; simp at hh
        | cons a as =>
          rw [hl] at hh
          simp only [List.head?_cons, Option.some.injEq] at hh
          simp [hh]

theorem natChars_head (n : Nat) :
    ∃ d, d < 10 ∧ (natChars n).head? = some (digitChar d) :=
  natCharsAux_head (n + 1) n (Nat.succ_ne_zero n)

theorem digitChar_bounds (d : Nat) (h : d < 10) :
    48 ≤ (digitChar d).toNat ∧ (digitChar d).toNat ≤ 57 := by
  interval_cases d <;> decide

theorem pyFloatStr_head (g : PyFloat) :
    ∃ c, (pyFloatStr g).data.head? = some c
      ∧ (c = '-' ∨ (48 ≤ c.toNat ∧ c.toNat ≤ 57)) := by
  unfold pyFloatStr
  by_cases hneg : g.mantissa < 0
  · refine ⟨'-', ?_, Or.inl rfl⟩
    dsimp only
    rw [if_pos hneg]
    exact str_head_append _ _ _ (str_head_append _ _ _
      (str_head_append _ _ _ rfl))
  · obtain ⟨d, hd, hh⟩ := natChars_head
      (g.mantissa.natAbs * 10 ^ (max g.exp 1 - g.exp) / 10 ^ max g.exp 1)
    refine ⟨digitChar d, ?_, Or.inr (digitChar_bounds d hd)⟩
    dsimp only
    rw [if_neg hneg]
    refine str_head_append _ _ _ (str_head_append _ _ _ ?_)
    rw [String.data_append]
    simpa using hh

theorem sizeStr_head (o : Option PyFloat) :
    ∃ c, (match o with
      | none => "0"
      | some f => pyFloatStr (pyRound1 f)).data.head? = some c
      ∧ (c = '-' ∨ (48 ≤ c.toNat ∧ c.toNat ≤ 57)) := by
  cases o with
  | none => exact ⟨'0', rfl, Or.inr (by decide)⟩
  | some f => exact pyFloatStr_head (pyRound1 f)

theorem makeUnCom_head (sp : TSpan) :
    ∃ c, (makeUnCom sp).data.head? = some c
      ∧ (c = '-' ∨ (48 ≤ c.toNat ∧ c.toNat ≤ 57)) := by
  obtain ⟨c, hc, hprop⟩ := sizeStr_head sp.size
  refine ⟨c, ?_, hprop⟩
  unfold makeUnCom
  dsimp only
  exact str_head_append _ _ _ (str_head_append _ _ _ (str_head_append _ _ _
    (str_head_append _ _ _ (str_head_append _ _ _ (str_head_append _ _ _
      (str_head_append _ _ _ (str_head_append _ _ _ (str_head_append _ _ _
        (str_head_append _ _ _ hc)))))))))

theorem mkImgKey_head (img : PdfImage) :
    (mkImgKey img).data.head? = some 'I' := by
  unfold mkImgKey
  exact str_head_append _ _ _ (str_head_append _ _ _ (str_head_append _ _ _
    (str_head_append _ _ _ (str_head_append _ _ _ (str_head_append _ _ _
      (str_head_append _ _ _ (str_head_append _ _ _ (str_head_append _ _ _
        (str_head_append _ _ _ (str_head_append _ _ _ rfl))))))))))

/-- A text signature key is never equal to an image signature key. -/
theorem makeUnCom_ne_mkImgKey (sp : TSpan) (img : PdfImage) :
    makeUnCom sp ≠ mkImgKey img := by
  intro heq
  obtain ⟨c, hc, hprop⟩ := makeUnCom_head sp
  have hI := mkImgKey_head img
  rw [heq] at hc
  have hcI : c = 'I' := Option.some.inj (hc.symm.trans hI)
  subst hcI
  rcases hprop with h | ⟨h1, h2⟩
  · exact absurd h (by decide)
  · have h73 : ('I').toNat = 73 := rfl
    omega

/-! ### Concrete fixtures -/

/-- A span with text "x" and every other field absent. -/
def spanX : TSpan :=
  ⟨some "x", none, none, none, none, none, none, none⟩

/-- A readable one-page document containing just the span "x". -/
def docA : PDoc :=
  .readable [⟨[⟨[⟨[spanX]⟩]⟩], []⟩]

/-- A document fitz.open cannot read. -/
def docBad : PDoc :=
  .unreadable

/-! ### The claims -/

/-- C1: for every candidate frequency mapping and every non-empty baseline,
the anomaly score is 0 when the total candidate occurrence count is 0 and
otherwise round(100 * unexpected_occurrences / total_occurrences, 2), where
unexpected_occurrences sums the candidate counts of exactly the keys absent
from the baseline — occurrence-weighted, not distinct-signature-weighted. -/
theorem C1_anomaly_score_formula (trained test : PyCounter)
    (hnd : NodupKeys test) (_hb : trained ≠ cempty) :
    fraud_score trained test =
      if ctotal test = 0 then 0
      else round2 (100 * ((List.map Prod.snd (List.filter
          (fun p => !(List.contains (ckeys trained) p.1)) test)).sum : ℚ)
        / (ctotal test : ℚ)) := by
  unfold fraud_score
  by_cases h0 : ctotal test = 0
  · simp [h0]
  · simp only [h0, if_neg, if_false]
    rw [sum_cget_filter (fun k => !(List.contains (ckeys trained) k)) test hnd]
    congr 1
    ring

/-- C1 witness at a concrete candidate and baseline. -/
theorem C1_anomaly_score_formula_witness :
    NodupKeys [("a", 2), ("b", 3)] ∧ ([("a", 1)] : PyCounter) ≠ cempty ∧
    fraud_score [("a", 1)] [("a", 2), ("b", 3)] =
      (if ctotal [("a", 2), ("b", 3)] = 0 then 0
       else round2 (100 * (((List.map Prod.snd (List.filter
           (fun p => !(List.contains (ckeys [("a", 1)]) p.1))
           ([("a", 2), ("b", 3)] : PyCounter))).sum : ℚ))
         / (ctotal [("a", 2), ("b", 3)] : ℚ))) :=
  ⟨by decide, by decide,
    C1_anomaly_score_formula [("a", 1)] [("a", 2), ("b", 3)] (by decide)
      (by decide)⟩

/-- C2: scoring with an empty baseline is always refused (the validate
handler warns "train the model first" — the BaselineNotReady signal),
regardless of the candidate. -/
theorem C2_empty_baseline_rejected (trained : PyCounter)
    (test_file : Option PDoc) (h : trained = cempty) :
    validate trained test_file = .baselineNotReady := by
  subst h
  rfl

/-- C2 witness at a concrete candidate. -/
theorem C2_empty_baseline_rejected_witness :
    (cempty = cempty) ∧ validate cempty (some docA) = .baselineNotReady :=
  ⟨rfl, C2_empty_baseline_rejected cempty (some docA) rfl⟩

/-- C3: training on a fixed document list twice in succession yields
identical baselines (idempotence), and on a non-empty list the result never
depends on the prior session state — training rebuilds from the empty
mapping. -/
theorem C3_training_is_replacement (state : PyCounter) (files : List PDoc) :
    train_model (train_model state files).1 files = train_model state files
    ∧ (∀ state2 : PyCounter, files ≠ [] →
        train_model state2 files = train_model cempty files) := by
  constructor
  · cases files with
    | nil => rfl
    | cons f fs => rfl
  · intro state2 hne
    cases files with
    | nil => exact absurd rfl hne
    | cons f fs => rfl

/-- C3 witness at a concrete document list and prior states. -/
theorem C3_training_is_replacement_witness :
    ([docA] ≠ ([] : List PDoc))
    ∧ train_model (train_model [("old", 5)] [docA]).1 [docA]
        = train_model [("old", 5)] [docA]
    ∧ train_model [("junk", 7)] [docA] = train_model cempty [docA] :=
  ⟨fun h => List.cons_ne_nil docA [] h,
    (C3_training_is_replacement [("old", 5)] [docA]).1,
    (C3_training_is_replacement [("old", 5)] [docA]).2 [("junk", 7)]
      (fun h => List.cons_ne_nil docA [] h)⟩

/-- C4: training on [docA, docBad] (docBad unreadable) aborts with the
exception, but the observable session baseline afterwards equals the
aggregate of only docA — a partial, non-empty baseline, contradicting the
claimed atomicity. -/
theorem C4_partial_baseline_on_failure (state : PyCounter) :
    (train_model state [docA, docBad]).2 = .raised
    ∧ (train_model state [docA, docBad]).1 = (train_model state [docA]).1
    ∧ (train_model state [docA, docBad]).1 ≠ cempty := by
  refine ⟨rfl, rfl, ?_⟩
  show (trainLoop cempty [docA, docBad]).1 ≠ cempty
  decide

/-- Signature key builder as C5 words the defaults: the style-flags slot
defaulting to 0 (every other sentinel as the source has it). -/
def makeUnComSpecC5 (sp : TSpan) : String :=
  let sizeStr := match sp.size with
    | none => "0"
    | some f => pyFloatStr (pyRound1 f)
  let flagsStr := match sp.flags with
    | none => "0"
    | some n => intStr n
  let font := sp.font.getD "Unknown"
  let color_hex := int_to_hex (sp.color.getD 0)
  let ascStr := match sp.ascender with
    | none => "0"
    | some f => pyFloatStr f
  let descStr := match sp.descender with
    | none => "0"
    | some f => pyFloatStr f
  sizeStr ++ "_" ++ flagsStr ++ "_" ++ font ++ "_" ++ color_hex ++ "_"
    ++ ascStr ++ "_" ++ descStr

/-- C5 counterexample: on a span with every field missing the source key
renders an empty style-flags slot, not the "0" the claim asserts. -/
theorem C5_flags_default_counterexample :
    makeUnCom spanX = "0__Unknown_#000000_0_0"
    ∧ makeUnComSpecC5 spanX = "0_0_Unknown_#000000_0_0"
    ∧ makeUnCom spanX ≠ makeUnComSpecC5 spanX :=
  ⟨rfl, rfl, by decide⟩

/-- C5 (amended): extraction of a span with missing fields never fails and
substitutes sentinels — font "Unknown", size/ascender/descender 0, and
style-flags the empty string — yielding a valid, comparable key and a
recorded content span. -/
theorem C5_sentinel_defaults (t : String) (pn : Nat)
    (st : PyCounter × List DChar) (h : pyStrip t ≠ "") :
    procSpan st pn ⟨some t, none, none, none, none, none, none, none⟩
      = (cincr st.1 "0__Unknown_#000000_0_0",
         st.2 ++ [⟨pyStrip t, pn, "0__Unknown_#000000_0_0", "#000000", []⟩]) := by
  have hkey : makeUnCom ⟨some t, none, none, none, none, none, none, none⟩
      = "0__Unknown_#000000_0_0" := by
    simp only [makeUnCom]
    rfl
  have hcol : int_to_hex 0 = "#000000" := rfl
  simp [procSpan, Option.getD, h, hkey, hcol]

/-- C5 witness at a concrete span and state. -/
theorem C5_sentinel_defaults_witness :
    pyStrip "x" ≠ ""
    ∧ procSpan (cempty, ([] : List DChar)) 0
        ⟨some "x", none, none, none, none, none, none, none⟩
      = (cincr cempty "0__Unknown_#000000_0_0",
         [] ++ [⟨pyStrip "x", 0, "0__Unknown_#000000_0_0", "#000000", []⟩]) :=
  ⟨by decide, C5_sentinel_defaults "x" 0 (cempty, []) (by decide)⟩

/-- C6: spans whose stripped text is empty contribute nothing — removing
them from a document changes neither the text frequency mapping nor the
ordered span list (nor the image mapping). -/
theorem C6_blank_spans_contribute_nothing (pages : List PdfPage) :
    extract_formatting_combos (.readable (removeBlankSpans pages))
      = extract_formatting_combos (.readable pages)
    ∧ extract_image_combos (.readable (removeBlankSpans pages))
      = extract_image_combos (.readable pages) := by
  constructor
  · simp only [extract_formatting_combos]
    rw [extract_pages_removeBlank]
  · simp only [extract_image_combos]
    rw [extract_images_removeBlank]

/-- Image key as C7 words it: exactly the six fields joined by the fixed
delimiter after the IMG_ tag, nothing else. -/
def mkImgKeySpecC7 (img : PdfImage) : String :=
  "IMG_" ++ natStr (img.width.getD 0) ++ "_" ++ natStr (img.height.getD 0)
    ++ "_" ++ img.ext.getD "unk" ++ "_"
    ++ (match img.colorspace with
        | none => "unk"
        | some n => intStr n)
    ++ "_" ++ natStr (img.bpc.getD 0) ++ "_"
    ++ natStr (img.image.getD []).length

/-- A concrete image occurrence and the document holding it. -/
def imgSample : PdfImage :=
  ⟨some 3, some 4, some "png", some 2, some 8, some [9, 9, 9, 9, 9]⟩

/-- One-page document whose only content is imgSample. -/
def docImg : PDoc :=
  .readable [⟨[], [imgSample]⟩]

/-- C7 counterexample: the source key carries two extra constant "0" fields
("IMG_3_4_png_2_0_0_8_5"), so it is not the concatenation of exactly the six
fields ("IMG_3_4_png_2_8_5"). -/
theorem C7_six_fields_counterexample :
    extract_image_combos docImg = .ok [("IMG_3_4_png_2_0_0_8_5", 1)]
    ∧ mkImgKey imgSample ≠ mkImgKeySpecC7 imgSample :=
  ⟨rfl, by decide⟩

/-- C7 (amended): the image key is the IMG_-tagged, "_"-delimited
concatenation of the six fields with two constant "0" placeholder fields
between the colorspace tag and the bit depth; image keys never collide with
text signature keys. -/
theorem C7_image_key_shape (img : PdfImage) (sp : TSpan) :
    mkImgKey img
      = "IMG_" ++ natStr (img.width.getD 0) ++ "_"
        ++ natStr (img.height.getD 0) ++ "_" ++ img.ext.getD "unk" ++ "_"
        ++ (match img.colorspace with
            | none => "unk"
            | some n => intStr n)
        ++ "_0_0_" ++ natStr (img.bpc.getD 0) ++ "_"
        ++ natStr (img.image.getD []).length
    ∧ makeUnCom sp ≠ mkImgKey img :=
  ⟨rfl, makeUnCom_ne_mkImgKey sp img⟩

/-- C8: every anomaly percentage the validate handler computes lies between
0 and 100 inclusive. -/
theorem C8_score_bounds (trained : PyCounter) (d : PDoc) (r : ScoreResult)
    (h : validate trained (some d) = .scored r) :
    0 ≤ r.score ∧ r.score ≤ 100 := by
  unfold validate at h
  by_cases he : trained.isEmpty
  · rw [if_pos he] at h
    simp at h
  · rw [if_neg he] at h
    cases d with
    | unreadable => simp [extract_formatting_combos] at h
    | readable pages =>
      simp only [extract_formatting_combos, extract_image_combos] at h
      rw [ValidateOut.scored.injEq] at h
      subst h
      exact fraud_score_bounds trained _
        (nodup_cadd (nodup_extract_pages pages) (nodup_extract_images pages))

/-- C8 witness at a concrete baseline and candidate. -/
theorem C8_score_bounds_witness :
    validate [("a", 1)] (some (PDoc.readable []))
        = .scored ⟨[], ["a"], 0, []⟩
    ∧ (0 ≤ (⟨[], ["a"], 0, []⟩ : ScoreResult).score
        ∧ (⟨[], ["a"], 0, []⟩ : ScoreResult).score ≤ 100) :=
  ⟨rfl, C8_score_bounds [("a", 1)] (PDoc.readable [])
    ⟨[], ["a"], 0, []⟩ rfl⟩

/-- C9: extraction is deterministic — running it twice on the same document
yields identical frequency mappings and identical span lists in the same
order (the embedding is a pure function of the document content). -/
theorem C9_extraction_deterministic (d1 d2 : PDoc) (h : d1 = d2) :
    extract_formatting_combos d1 = extract_formatting_combos d2
    ∧ extract_image_combos d1 = extract_image_combos d2 := by
  subst h
  exact ⟨rfl, rfl⟩

/-- C9 witness at a concrete document. -/
theorem C9_extraction_deterministic_witness :
    docA = docA
    ∧ (extract_formatting_combos docA = extract_formatting_combos docA
        ∧ extract_image_combos docA = extract_image_combos docA) :=
  ⟨rfl, C9_extraction_deterministic docA docA rfl⟩

/-- C10: analyze_pdf is total — on any internal exception it returns the
error record (Edited None, Reasons carrying the error message, empty data
fields, File Name the basename as in the success path), and on every
successful read Edited is an actual boolean. -/
theorem C10_analyze_pdf_total (file_path msg : String)
    (meta : Option PdfMeta) :
    analyze_pdf file_path (.failure msg)
      = ⟨basename file_path, none, "Error: " ++ msg, "", "", "", "", "",
          "\x7b\x7d"⟩
    ∧ (analyze_pdf file_path (.ok meta)).edited.isSome = true :=
  ⟨rfl, rfl⟩
